import Mathlib

/-!
# The Prometheus stats example program

A verification development for `examples/stats/prometheus/main.go`.

The program is glue code: every statement of `main` is a call into a library (the
Prometheus exporter, the `stats` package, `net/http`, `log`, `fmt`, `time`, `math/rand`).
The embedding therefore describes `main` by the calls it makes, in order, together with
their arguments and results.  What the libraries answer is not decided by the program;
it is supplied by an environment `Env`.  An execution is the list of calls performed so
far (`List Event`).  The recording goroutine started by the `go` statement runs
concurrently with the rest of `main`; its calls are interleaved with those of the main
goroutine according to a schedule.
-/

namespace PrometheusExample

/-! ## Values crossing the library boundary -/

/-- Go error value that is not nil, represented by its message. -/
abbrev GoError := String

/-- Go `time.Duration`: a signed count of nanoseconds.  The only arithmetic the program
performs on durations stays at or below `10^9`, far from the int64 range, so unbounded
integers are exact here. -/
abbrev Duration := Int

/-- Go `time.Nanosecond`. -/
def Nanosecond : Duration := 1

/-- Go `time.Microsecond`. -/
def Microsecond : Duration := 1000 * Nanosecond

/-- Go `time.Millisecond`. -/
def Millisecond : Duration := 1000 * Microsecond

/-- Go `time.Second`. -/
def Second : Duration := 1000 * Millisecond

/-- The value `prometheus.Options{}`: the options struct with every field at its zero
value, which is the only options value the program builds. -/
inductive Options where
  | zero
deriving DecidableEq, Repr

/-- A `*prometheus.Exporter`, identified by its address. -/
structure Exporter where
  addr : Nat
deriving DecidableEq, Repr

/-- A `*stats.MeasureInt64`, identified by its address. -/
structure MeasureInt64 where
  addr : Nat
deriving DecidableEq, Repr

/-- A `*stats.View`, identified by its address. -/
structure View where
  addr : Nat
deriving DecidableEq, Repr

/-- Result of a library constructor: Go's pair of a value and an error, of which exactly
one is meaningful. -/
inductive Result (α : Type) where
  | ok (value : α)
  | error (err : GoError)
deriving DecidableEq, Repr

/-- A `context.Context`, reduced to the tags it carries. -/
structure Context where
  tags : List (String × String)
deriving DecidableEq, Repr

/-- Go `context.Background()`: the empty context. -/
def Context.Background : Context := ⟨[]⟩

/-- A measurement: a value recorded against an integer measure. -/
structure Measurement where
  measure : MeasureInt64
  value : Int
deriving DecidableEq, Repr

/-- The method `(*MeasureInt64).M`: the measurement of value `v` for this measure. -/
def MeasureInt64.M (m : MeasureInt64) (v : Int) : Measurement := ⟨m, v⟩

/-- Modelled from the spec: the aggregation kinds of the stats library, which is not
part of the example's source.  The program only ever builds `stats.CountAggregation{}`. -/
inductive Aggregation where
  | count
  | sum
  | lastValue
  | distribution
deriving DecidableEq, Repr

/-- Modelled from the spec: the window policies of the stats library, which is not part
of the example's source.  The program only ever builds `stats.Cumulative{}`. -/
inductive Window where
  | cumulative
  | interval
deriving DecidableEq, Repr

/-! ## Events and environments -/

/-- One call made by the program, with its arguments and, where the program looks at it,
its result. -/
inductive Event where
  | newExporter (o : Options) (r : Result Exporter)
  | registerExporter (e : Exporter)
  | newMeasureInt64 (name description unit : String) (r : Result MeasureInt64)
  | newView (name description : String) (keys : List String) (m : MeasureInt64)
      (agg : Aggregation) (w : Window) (r : Result View)
  | setReportingPeriod (d : Duration)
  | subscribe (v : View) (err : Option GoError)
  | unsubscribe (v : View) (err : Option GoError)
  | go
  | record (ctx : Context) (ms : List Measurement)
  | after (d : Duration)
  | println (s : String)
  | httpHandle (pattern : String) (handler : Exporter)
  | listenAndServe (addr : String) (handler : Option Exporter)
  | logFatal (msg : String)
deriving DecidableEq, Repr

/-- What the libraries answer.  `listenAndServe = none` means the server keeps serving
and the call never returns; `rand i` is the `i`-th number drawn from the random source. -/
structure Env where
  newExporter : Result Exporter
  newMeasureInt64 : Result MeasureInt64
  newView : Result View
  subscribe : Option GoError
  listenAndServe : Option GoError
  rand : Nat → Nat

/-- Go `rand.Intn(n)` on the `i`-th draw: a number in `[0, n)`. -/
def Env.Intn (env : Env) (i n : Nat) : Nat := env.rand i % n

/-! ## Sequential Go code -/

/-- Sequential code of one goroutine: it extends the list of calls made so far and either
yields a value or does not continue (the process has exited through `log.Fatal`, or the
goroutine is blocked for good). -/
def Go (α : Type) : Type := List Event → List Event × Option α

instance : Monad Go where
  pure a := fun t => (t, some a)
  bind x f := fun t =>
    match x t with
    | (t1, none) => (t1, none)
    | (t1, some a) => f a t1

/-- Perform one call. -/
def call (e : Event) : Go Unit := fun t => (t ++ [e], some ())

/-- Go `log.Fatal` and `log.Fatalf`: print the message and exit the process. -/
def logFatal {α : Type} (msg : String) : Go α := fun t => (t ++ [Event.logFatal msg], none)

/-- The idiom of a constructor call followed by `if err != nil` and a fatal log: continue
with the value, or exit fatally with the message built from the error. -/
def orFatal {α : Type} (r : Result α) (message : GoError → String) : Go α :=
  match r with
  | Result.ok a => pure a
  | Result.error err => logFatal (message err)

/-- The same idiom for a call that returns only an error. -/
def errFatal (r : Option GoError) (message : GoError → String) : Go Unit :=
  match r with
  | none => pure ()
  | some err => logFatal (message err)

/-- Call `prometheus.NewExporter`. -/
def NewExporter (env : Env) (o : Options) : Go (Result Exporter) := do
  call (Event.newExporter o env.newExporter)
  pure env.newExporter

/-- Call `stats.NewMeasureInt64`. -/
def NewMeasureInt64 (env : Env) (name description unit : String) : Go (Result MeasureInt64) := do
  call (Event.newMeasureInt64 name description unit env.newMeasureInt64)
  pure env.newMeasureInt64

/-- Call `stats.NewView`. -/
def NewView (env : Env) (name description : String) (keys : List String) (m : MeasureInt64)
    (agg : Aggregation) (w : Window) : Go (Result View) := do
  call (Event.newView name description keys m agg w env.newView)
  pure env.newView

/-- Call `(*View).Subscribe`. -/
def Subscribe (env : Env) (v : View) : Go (Option GoError) := do
  call (Event.subscribe v env.subscribe)
  pure env.subscribe

/-- What `main` holds once its setup is done. -/
structure Handles where
  ctx : Context
  exporter : Exporter
  videoCount : MeasureInt64
  view : View
deriving DecidableEq, Repr

/-! ## The program -/

/-- The body of `main` up to the `go` statement. -/
def setup (env : Env) : Go Handles := do
  let ctx := Context.Background
  let exporter ← orFatal (← NewExporter env Options.zero) (fun err => err)
  call (Event.registerExporter exporter)
  let videoCount ← orFatal
    (← NewMeasureInt64 env "my.org/measures/video_count" "number of processed videos" "")
    (fun err => "Video size measure not created: " ++ err)
  let view ← orFatal
    (← NewView env "video_count" "processed video size over time" [] videoCount
      Aggregation.count Window.cumulative)
    (fun err => "Cannot create view: " ++ err)
  call (Event.setReportingPeriod (1 * Second))
  errFatal (← Subscribe env view) (fun err => "Cannot subscribe to the view: " ++ err)
  pure ⟨ctx, exporter, videoCount, view⟩

/-- The body of `main` after the `go` statement.  `http.ListenAndServe` blocks; if it ever
returns, its error goes to `log.Fatal`. -/
def serve (env : Env) (exporter : Exporter) : Go Unit := do
  call (Event.println "Wait longer than the reporting duration...")
  call (Event.httpHandle "/metrics" exporter)
  call (Event.listenAndServe ":9999" none)
  match env.listenAndServe with
  | none => fun t => (t, none)
  | some err => logFatal err

/-- The recording goroutine: `fuel` iterations of its endless `for` loop, starting with
the `i`-th draw from the random source. -/
def recorder (env : Env) (ctx : Context) (videoCount : MeasureInt64) : Nat → Nat → List Event
  | _, 0 => []
  | i, fuel + 1 =>
    Event.record ctx [videoCount.M 1]
      :: Event.after (Millisecond * ((1 + env.Intn i 400 : Nat) : Int))
      :: recorder env ctx videoCount (i + 1) fuel

/-- Whether the event is a `log.Fatal`, which ends the process. -/
def Event.isFatal : Event → Bool
  | Event.logFatal _ => true
  | _ => false

/-- Interleaving of the main goroutine's remaining calls `m` with the recording
goroutine's calls `g`: at each step the schedule picks the main goroutine (`true`) or the
recording goroutine (`false`).  A goroutine with nothing left to do (blocked, or out of
fuel) does nothing when picked.  Nothing happens after a `log.Fatal`. -/
def interleave : List Bool → List Event → List Event → List Event
  | [], _, _ => []
  | true :: s, [], g => interleave s [] g
  | true :: s, e :: m, g => if e.isFatal then [e] else e :: interleave s m g
  | false :: s, m, [] => interleave s m []
  | false :: s, m, e :: g => e :: interleave s m g

/-- The program: the calls performed by an execution of `main` in environment `env`, under
schedule `sched`, with the recording goroutine allowed `fuel` iterations. -/
def main (env : Env) (sched : List Bool) (fuel : Nat) : List Event :=
  match setup env [] with
  | (t, none) => t
  | (t, some h) =>
    t ++ Event.go ::
      interleave sched (serve env h.exporter []).1 (recorder env h.ctx h.videoCount 0 fuel)

/-! ## Observations on executions -/

/-- The calls of a setup in which every checked call succeeds, yielding exporter `x`,
measure `m` and view `v`. -/
def setupCalls (x : Exporter) (m : MeasureInt64) (v : View) : List Event :=
  [Event.newExporter Options.zero (Result.ok x),
   Event.registerExporter x,
   Event.newMeasureInt64 "my.org/measures/video_count" "number of processed videos" ""
     (Result.ok m),
   Event.newView "video_count" "processed video size over time" [] m
     Aggregation.count Window.cumulative (Result.ok v),
   Event.setReportingPeriod 1000000000,
   Event.subscribe v none]

/-- Whether the event is a `stats.Record` call. -/
def Event.isRecord : Event → Bool
  | Event.record _ _ => true
  | _ => false

/-- Whether the event is a call made by the recording goroutine: its loop body performs a
`stats.Record` and then a wait on `time.After`. -/
def Event.isLoopStep : Event → Bool
  | Event.record _ _ => true
  | Event.after _ => true
  | _ => false

/-- Whether the event is a `prometheus.NewExporter` call. -/
def Event.isNewExporter : Event → Bool
  | Event.newExporter _ _ => true
  | _ => false

/-- Whether the event is a `stats.NewView` call. -/
def Event.isNewView : Event → Bool
  | Event.newView _ _ _ _ _ _ _ => true
  | _ => false

/-- Whether the event is an `http.Handle` call. -/
def Event.isHandle : Event → Bool
  | Event.httpHandle _ _ => true
  | _ => false

/-- Whether the event is an `http.ListenAndServe` call. -/
def Event.isListen : Event → Bool
  | Event.listenAndServe _ _ => true
  | _ => false

/-- Whether the event is a `Subscribe` call. -/
def Event.isSubscribe : Event → Bool
  | Event.subscribe _ _ => true
  | _ => false

/-- Number of `stats.Record` calls in an execution. -/
def recordCalls (t : List Event) : Nat := t.countP Event.isRecord

/-- Number of calls the recording goroutine has made in an execution.  One iteration of
its loop makes two calls, so the goroutine has completed `n` iterations, and stands at the
head of its loop, exactly when this number is `2 * n`. -/
def loopSteps (t : List Event) : Nat := t.countP Event.isLoopStep

/-- Whether the event is a completed wait on `time.After`. -/
def Event.isAfter : Event → Bool
  | Event.after _ => true
  | _ => false

/-- Number of iterations of its loop the recording goroutine has completed in an
execution.  The wait on `time.After` is the last statement of the loop body, so an
iteration is complete exactly when its wait is over. -/
def iterationsCompleted (t : List Event) : Nat := t.countP Event.isAfter

/-- The durations passed to `stats.SetReportingPeriod`, in call order. -/
def periods (t : List Event) : List Duration :=
  t.filterMap fun e =>
    match e with
    | Event.setReportingPeriod d => some d
    | _ => none

/-- The name strings passed to `stats.NewMeasureInt64`, in call order. -/
def measureNames (t : List Event) : List String :=
  t.filterMap fun e =>
    match e with
    | Event.newMeasureInt64 name _ _ _ => some name
    | _ => none

/-- The name strings passed to `stats.NewView`, in call order. -/
def viewNames (t : List Event) : List String :=
  t.filterMap fun e =>
    match e with
    | Event.newView name _ _ _ _ _ _ => some name
    | _ => none

/-- The measures of all measurements passed to `stats.Record`, in call order. -/
def recordedMeasures (t : List Event) : List MeasureInt64 :=
  t.flatMap fun e =>
    match e with
    | Event.record _ ms => ms.map Measurement.measure
    | _ => []

/-! ## The stats library, as far as the program relies on it -/

/-- Modelled from the spec: the subscription lifecycle of the View Manager, which is not
part of the example's source.  A view is subscribed from a successful subscribe call until
a successful unsubscribe call. -/
def subscribedStep (v : View) (b : Bool) : Event → Bool
  | Event.subscribe w none => if w = v then true else b
  | Event.unsubscribe w none => if w = v then false else b
  | _ => b

/-- Modelled from the spec: whether view `v` is subscribed after the calls `t`. -/
def subscribed (v : View) (t : List Event) : Bool := t.foldl (subscribedStep v) false

/-- Modelled from the spec: the Recorder's validation of a measurement against a grouped
view, which the spec leaves open and treats as skipping the update on a mismatch.  Here
every group-by key of the view must have a tag in the recording context. -/
def tagsMatch (keys : List String) (ctx : Context) : Bool :=
  keys.all fun k => ctx.tags.any fun kv => kv.1 == k

/-- Modelled from the spec: the Count aggregation with the Cumulative window, and the
Recorder's routing, of the stats library, which is not part of the example's source.  The
state of view `v` (group-by keys `keys`, measure `m`) is `none` while it is not subscribed
and `some c` while it is.  A successful subscribe starts the count at 0; every measurement
of a record call that is against `m` adds 1, whatever its value; nothing ever resets the
count except a successful unsubscribe, which discards it. -/
def countStep (v : View) (keys : List String) (m : MeasureInt64) (s : Option Nat)
    (e : Event) : Option Nat :=
  match s, e with
  | none, Event.subscribe w none => if w = v then some 0 else none
  | some c, Event.unsubscribe w none => if w = v then none else some c
  | some c, Event.record ctx ms =>
    if tagsMatch keys ctx then some (c + ms.countP fun x => x.measure = m) else some c
  | s, _ => s

/-- Modelled from the spec: the count of the Count view `v` after the calls `t`. -/
def viewCount (v : View) (keys : List String) (m : MeasureInt64) (t : List Event) :
    Option Nat :=
  t.foldl (countStep v keys m) none

/-! ## Sample environments -/

/-- An environment in which every call succeeds and the server keeps serving. -/
def envOk : Env := ⟨Result.ok ⟨1⟩, Result.ok ⟨2⟩, Result.ok ⟨3⟩, none, none, fun i => 7 * i⟩

/-- An environment in which the exporter cannot be created. -/
def envNoExporter : Env :=
  ⟨Result.error "no exporter", Result.ok ⟨2⟩, Result.ok ⟨3⟩, none, none, fun _ => 0⟩

/-- An environment in which the view cannot be subscribed. -/
def envNoSubscribe : Env :=
  ⟨Result.ok ⟨1⟩, Result.ok ⟨2⟩, Result.ok ⟨3⟩, some "duplicate view", none, fun _ => 0⟩

/-- An environment in which the measure cannot be created. -/
def envNoMeasure : Env :=
  ⟨Result.ok ⟨1⟩, Result.error "duplicate name", Result.ok ⟨3⟩, none, none, fun _ => 0⟩

/-- An environment in which the view cannot be created. -/
def envNoView : Env :=
  ⟨Result.ok ⟨1⟩, Result.ok ⟨2⟩, Result.error "bad view", none, none, fun _ => 0⟩

/-- An environment in which the server fails, for instance because the port is taken. -/
def envNoServer : Env :=
  ⟨Result.ok ⟨1⟩, Result.ok ⟨2⟩, Result.ok ⟨3⟩, none, some "address in use", fun i => i⟩

/-! ## Shape of the executions -/

theorem main_newExporter_error (env : Env) (sched : List Bool) (fuel : Nat) (err : GoError)
    (h : env.newExporter = Result.error err) :
    main env sched fuel = [Event.newExporter Options.zero (Result.error err), Event.logFatal err] := by
  unfold main setup
  simp [h, NewExporter, orFatal, call, logFatal, bind, pure]

theorem main_newMeasure_error (env : Env) (sched : List Bool) (fuel : Nat) (x : Exporter)
    (err : GoError) (h1 : env.newExporter = Result.ok x)
    (h2 : env.newMeasureInt64 = Result.error err) :
    main env sched fuel =
      [Event.newExporter Options.zero (Result.ok x),
       Event.registerExporter x,
       Event.newMeasureInt64 "my.org/measures/video_count" "number of processed videos" ""
         (Result.error err),
       Event.logFatal ("Video size measure not created: " ++ err)] := by
  unfold main setup
  simp [h1, h2, NewExporter, NewMeasureInt64, orFatal, call, logFatal, bind, pure]

theorem main_newView_error (env : Env) (sched : List Bool) (fuel : Nat) (x : Exporter)
    (m : MeasureInt64) (err : GoError) (h1 : env.newExporter = Result.ok x)
    (h2 : env.newMeasureInt64 = Result.ok m) (h3 : env.newView = Result.error err) :
    main env sched fuel =
      [Event.newExporter Options.zero (Result.ok x),
       Event.registerExporter x,
       Event.newMeasureInt64 "my.org/measures/video_count" "number of processed videos" ""
         (Result.ok m),
       Event.newView "video_count" "processed video size over time" [] m
         Aggregation.count Window.cumulative (Result.error err),
       Event.logFatal ("Cannot create view: " ++ err)] := by
  unfold main setup
  simp [h1, h2, h3, NewExporter, NewMeasureInt64, NewView, orFatal, call, logFatal, bind, pure]

theorem main_subscribe_error (env : Env) (sched : List Bool) (fuel : Nat) (x : Exporter)
    (m : MeasureInt64) (v : View) (err : GoError) (h1 : env.newExporter = Result.ok x)
    (h2 : env.newMeasureInt64 = Result.ok m) (h3 : env.newView = Result.ok v)
    (h4 : env.subscribe = some err) :
    main env sched fuel =
      [Event.newExporter Options.zero (Result.ok x),
       Event.registerExporter x,
       Event.newMeasureInt64 "my.org/measures/video_count" "number of processed videos" ""
         (Result.ok m),
       Event.newView "video_count" "processed video size over time" [] m
         Aggregation.count Window.cumulative (Result.ok v),
       Event.setReportingPeriod 1000000000,
       Event.subscribe v (some err),
       Event.logFatal ("Cannot subscribe to the view: " ++ err)] := by
  unfold main setup
  simp [h1, h2, h3, h4, NewExporter, NewMeasureInt64, NewView, Subscribe, orFatal, errFatal,
    call, logFatal, bind, pure, Second, Millisecond, Microsecond, Nanosecond]

theorem main_setup_ok (env : Env) (sched : List Bool) (fuel : Nat) (x : Exporter)
    (m : MeasureInt64) (v : View) (h1 : env.newExporter = Result.ok x)
    (h2 : env.newMeasureInt64 = Result.ok m) (h3 : env.newView = Result.ok v)
    (h4 : env.subscribe = none) :
    main env sched fuel =
      setupCalls x m v ++ Event.go ::
        interleave sched (serve env x []).1 (recorder env Context.Background m 0 fuel) := by
  unfold main setup
  simp [h1, h2, h3, h4, NewExporter, NewMeasureInt64, NewView, Subscribe, orFatal, errFatal,
    call, logFatal, bind, pure, Second, Millisecond, Microsecond, Nanosecond, setupCalls]

theorem serve_calls (env : Env) (x : Exporter) :
    (env.listenAndServe = none ∧
      (serve env x []).1 =
        [Event.println "Wait longer than the reporting duration...",
         Event.httpHandle "/metrics" x, Event.listenAndServe ":9999" none]) ∨
    (∃ err, env.listenAndServe = some err ∧
      (serve env x []).1 =
        [Event.println "Wait longer than the reporting duration...",
         Event.httpHandle "/metrics" x, Event.listenAndServe ":9999" none,
         Event.logFatal err]) := by
  cases h : env.listenAndServe with
  | none => left; simp [serve, h, call, bind]
  | some err => right; exact ⟨err, rfl, by simp [serve, h, call, logFatal, bind]⟩

theorem serve_mem (env : Env) (x : Exporter) (e : Event) (he : e ∈ (serve env x []).1) :
    e = Event.println "Wait longer than the reporting duration..." ∨
    e = Event.httpHandle "/metrics" x ∨ e = Event.listenAndServe ":9999" none ∨
    ∃ err, e = Event.logFatal err := by
  rcases serve_calls env x with ⟨-, h⟩ | ⟨err, -, h⟩
  · rw [h] at he; simp at he; tauto
  · rw [h] at he; simp at he
    rcases he with h | h | h | h
    · exact Or.inl h
    · exact Or.inr (Or.inl h)
    · exact Or.inr (Or.inr (Or.inl h))
    · exact Or.inr (Or.inr (Or.inr ⟨err, h⟩))

theorem recorder_mem (env : Env) (ctx : Context) (m : MeasureInt64) (e : Event) :
    ∀ (fuel i : Nat), e ∈ recorder env ctx m i fuel →
      e = Event.record ctx [m.M 1] ∨ ∃ d, e = Event.after d := by
  intro fuel
  induction fuel with
  | zero => intro i h; simp [recorder] at h
  | succ k ih =>
    intro i h
    simp only [recorder, List.mem_cons] at h
    rcases h with h | h | h
    · exact Or.inl h
    · exact Or.inr ⟨_, h⟩
    · exact ih _ h

theorem interleave_mem (e : Event) :
    ∀ (s : List Bool) (m g : List Event), e ∈ interleave s m g → e ∈ m ∨ e ∈ g := by
  intro s
  induction s with
  | nil => intro m g h; simp [interleave] at h
  | cons b s ih =>
    intro m g h
    cases b with
    | true =>
      cases m with
      | nil => simp only [interleave] at h; exact ih _ _ h
      | cons a m =>
        simp only [interleave] at h
        split at h
        · simp at h; left; simp [h]
        · simp only [List.mem_cons] at h
          rcases h with h | h
          · left; simp [h]
          · rcases ih _ _ h with h | h
            · left; simp [h]
            · right; exact h
    | false =>
      cases g with
      | nil => simp only [interleave] at h; exact ih _ _ h
      | cons a g =>
        simp only [interleave, List.mem_cons] at h
        rcases h with h | h
        · right; simp [h]
        · rcases ih _ _ h with h | h
          · left; exact h
          · right; simp [h]

theorem interleave_countP_le (p : Event → Bool) :
    ∀ (s : List Bool) (m g : List Event),
      (interleave s m g).countP p ≤ m.countP p + g.countP p := by
  intro s
  induction s with
  | nil => intro m g; simp [interleave]
  | cons b s ih =>
    intro m g
    cases b with
    | true =>
      cases m with
      | nil => simpa [interleave] using ih [] g
      | cons a m =>
        simp only [interleave]
        split
        · simp only [List.countP_cons, List.countP_nil]; omega
        · have := ih m g
          simp only [List.countP_cons]; omega
    | false =>
      cases g with
      | nil => simpa [interleave] using ih m []
      | cons a g =>
        have := ih m g
        simp only [interleave, List.countP_cons]; omega

theorem interleave_filter (p : Event → Bool) :
    ∀ (s : List Bool) (m g : List Event), (∀ e ∈ m, p e = false) → (∀ e ∈ g, p e = true) →
      ∃ k, (interleave s m g).filter p = g.take k := by
  intro s
  induction s with
  | nil => intro m g _ _; exact ⟨0, by simp [interleave]⟩
  | cons b s ih =>
    intro m g hm hg
    cases b with
    | true =>
      cases m with
      | nil => simpa [interleave] using ih [] g hm hg
      | cons a m =>
        have ha : p a = false := hm a (by simp)
        simp only [interleave]
        split
        · exact ⟨0, by simp [ha]⟩
        · obtain ⟨k, hk⟩ := ih m g (fun e he => hm e (by simp [he])) hg
          exact ⟨k, by simp [ha, hk]⟩
    | false =>
      cases g with
      | nil => simpa [interleave] using ih m [] hm hg
      | cons a g =>
        have ha : p a = true := hg a (by simp)
        obtain ⟨k, hk⟩ := ih m g hm (fun e he => hg e (by simp [he]))
        exact ⟨k + 1, by simp [interleave, ha, hk]⟩

theorem recorder_take_counts (env : Env) (ctx : Context) (m : MeasureInt64) :
    ∀ (fuel i k : Nat),
      ((recorder env ctx m i fuel).take k).countP Event.isRecord =
        (((recorder env ctx m i fuel).take k).length + 1) / 2 ∧
      ((recorder env ctx m i fuel).take k).countP Event.isAfter =
        ((recorder env ctx m i fuel).take k).length / 2 := by
  intro fuel
  induction fuel with
  | zero => intro i k; simp [recorder]
  | succ f ih =>
    intro i k
    match k with
    | 0 => simp
    | 1 => simp [recorder, Event.isRecord, Event.isAfter]
    | k + 2 =>
      obtain ⟨h1, h2⟩ := ih (i + 1) k
      simp only [recorder, List.take_succ_cons, List.length_cons]
      have hr : Event.isRecord (Event.record ctx [m.M 1]) = true := rfl
      have hra : ∀ d, ¬ Event.isRecord (Event.after d) = true := fun _ => by
        simp [Event.isRecord]
      have ha : ∀ d, Event.isAfter (Event.after d) = true := fun _ => rfl
      have har : ¬ Event.isAfter (Event.record ctx [m.M 1]) = true := by
        simp [Event.isAfter]
      rw [List.countP_cons_of_pos _ _ hr, List.countP_cons_of_neg _ _ (hra _),
        List.countP_cons_of_neg _ _ har, List.countP_cons_of_pos _ _ (ha _), h1, h2]
      constructor <;> omega

theorem recorder_length (env : Env) (ctx : Context) (m : MeasureInt64) :
    ∀ (fuel i : Nat), (recorder env ctx m i fuel).length = 2 * fuel := by
  intro fuel
  induction fuel with
  | zero => intro i; rfl
  | succ f ih => intro i; simp only [recorder, List.length_cons, ih (i + 1)]; omega

/-- A schedule that only ever picks the recording goroutine runs it step by step. -/
theorem interleave_recorder_only (ms : List Event) :
    ∀ (k : Nat) (g : List Event), interleave (List.replicate k false) ms g = g.take k := by
  intro k
  induction k with
  | zero => intro g; simp [interleave]
  | succ k ih =>
    intro g
    rw [List.replicate_succ]
    cases g with
    | nil => simp only [interleave, ih, List.take_nil]
    | cons e g => simp only [interleave, ih, List.take_succ_cons]

/-- Every call made after the `go` statement: the three calls of the main goroutine, a
fatal log, or a call of the recording goroutine. -/
theorem tail_mem (env : Env) (x : Exporter) (m : MeasureInt64) (s : List Bool) (fuel : Nat)
    (e : Event)
    (he : e ∈ interleave s (serve env x []).1 (recorder env Context.Background m 0 fuel)) :
    e = Event.println "Wait longer than the reporting duration..." ∨
    e = Event.httpHandle "/metrics" x ∨ e = Event.listenAndServe ":9999" none ∨
    (∃ err, e = Event.logFatal err) ∨
    e = Event.record Context.Background [m.M 1] ∨ ∃ d, e = Event.after d := by
  rcases interleave_mem e _ _ _ he with h | h
  · rcases serve_mem env x e h with h | h | h | h
    · exact Or.inl h
    · exact Or.inr (Or.inl h)
    · exact Or.inr (Or.inr (Or.inl h))
    · exact Or.inr (Or.inr (Or.inr (Or.inl h)))
  · rcases recorder_mem env _ m e _ _ h with h | h
    · exact Or.inr (Or.inr (Or.inr (Or.inr (Or.inl h))))
    · exact Or.inr (Or.inr (Or.inr (Or.inr (Or.inr h))))

/-- The five ways an execution can go: one of the four checked calls fails, or all succeed
and the two goroutines run. -/
theorem main_cases (env : Env) (sched : List Bool) (fuel : Nat) :
    (∃ err, env.newExporter = Result.error err ∧
      main env sched fuel =
        [Event.newExporter Options.zero (Result.error err), Event.logFatal err]) ∨
    (∃ x err, env.newExporter = Result.ok x ∧ env.newMeasureInt64 = Result.error err ∧
      main env sched fuel =
        [Event.newExporter Options.zero (Result.ok x),
         Event.registerExporter x,
         Event.newMeasureInt64 "my.org/measures/video_count" "number of processed videos" ""
           (Result.error err),
         Event.logFatal ("Video size measure not created: " ++ err)]) ∨
    (∃ x m err, env.newExporter = Result.ok x ∧ env.newMeasureInt64 = Result.ok m ∧
      env.newView = Result.error err ∧
      main env sched fuel =
        [Event.newExporter Options.zero (Result.ok x),
         Event.registerExporter x,
         Event.newMeasureInt64 "my.org/measures/video_count" "number of processed videos" ""
           (Result.ok m),
         Event.newView "video_count" "processed video size over time" [] m
           Aggregation.count Window.cumulative (Result.error err),
         Event.logFatal ("Cannot create view: " ++ err)]) ∨
    (∃ x m v err, env.newExporter = Result.ok x ∧ env.newMeasureInt64 = Result.ok m ∧
      env.newView = Result.ok v ∧ env.subscribe = some err ∧
      main env sched fuel =
        [Event.newExporter Options.zero (Result.ok x),
         Event.registerExporter x,
         Event.newMeasureInt64 "my.org/measures/video_count" "number of processed videos" ""
           (Result.ok m),
         Event.newView "video_count" "processed video size over time" [] m
           Aggregation.count Window.cumulative (Result.ok v),
         Event.setReportingPeriod 1000000000,
         Event.subscribe v (some err),
         Event.logFatal ("Cannot subscribe to the view: " ++ err)]) ∨
    (∃ x m v, env.newExporter = Result.ok x ∧ env.newMeasureInt64 = Result.ok m ∧
      env.newView = Result.ok v ∧ env.subscribe = none ∧
      main env sched fuel =
        setupCalls x m v ++ Event.go ::
          interleave sched (serve env x []).1 (recorder env Context.Background m 0 fuel)) := by
  cases h1 : env.newExporter with
  | error err => exact Or.inl ⟨err, rfl, main_newExporter_error env sched fuel err h1⟩
  | ok x =>
    cases h2 : env.newMeasureInt64 with
    | error err =>
      exact Or.inr (Or.inl ⟨x, err, rfl, rfl, main_newMeasure_error env sched fuel x err h1 h2⟩)
    | ok m =>
      cases h3 : env.newView with
      | error err =>
        exact Or.inr (Or.inr (Or.inl
          ⟨x, m, err, rfl, rfl, rfl, main_newView_error env sched fuel x m err h1 h2 h3⟩))
      | ok v =>
        cases h4 : env.subscribe with
        | some err =>
          exact Or.inr (Or.inr (Or.inr (Or.inl
            ⟨x, m, v, err, rfl, rfl, rfl, rfl,
              main_subscribe_error env sched fuel x m v err h1 h2 h3 h4⟩)))
        | none =>
          exact Or.inr (Or.inr (Or.inr (Or.inr
            ⟨x, m, v, rfl, rfl, rfl, rfl, main_setup_ok env sched fuel x m v h1 h2 h3 h4⟩)))

/-- In a list cut at an element that does not occur in its first part, that first part lies
wholly before the cut. -/
theorem mem_before_cut {α : Type} (S R p q : List α) (e a : α) (h : S ++ R = p ++ e :: q)
    (he : e ∉ S) (ha : a ∈ S) : a ∈ p := by
  rcases List.append_eq_append_iff.mp h with ⟨r, hp, -⟩ | ⟨c, hS, hc⟩
  · rw [hp]; exact List.mem_append_left _ ha
  · cases c with
    | nil => simp at hS; rw [← hS]; exact ha
    | cons b c =>
      simp only [List.cons_append, List.cons.injEq] at hc
      exact absurd (by rw [hS, hc.1]; simp) he

theorem cut_after {α : Type} (S R p q : List α) (e : α) (h : S ++ R = p ++ e :: q)
    (he : e ∉ S) : ∃ r, p = S ++ r ∧ R = r ++ e :: q := by
  rcases List.append_eq_append_iff.mp h with ⟨r, hp, hR⟩ | ⟨c, hS, hc⟩
  · exact ⟨r, hp, hR⟩
  · cases c with
    | nil =>
      simp only [List.append_nil, List.nil_append] at hS hc
      exact ⟨[], by simp [hS], by simp [hc]⟩
    | cons b c =>
      simp only [List.cons_append, List.cons.injEq] at hc
      exact absurd (by rw [hS, hc.1]; simp) he

theorem mem_of_cut {α : Type} (l p q : List α) (e : α) (h : l = p ++ e :: q) : e ∈ l := by
  rw [h]; simp

theorem tail_not_go (env : Env) (x : Exporter) (m : MeasureInt64) (s : List Bool)
    (fuel : Nat) :
    Event.go ∉ interleave s (serve env x []).1 (recorder env Context.Background m 0 fuel) := by
  intro h
  rcases tail_mem env x m s fuel _ h with h | h | h | ⟨_, h⟩ | h | ⟨_, h⟩ <;> cases h

theorem subscribed_keep (v : View) :
    ∀ (r : List Event), (∀ a ∈ r, ∀ w err, a ≠ Event.unsubscribe w err) →
      r.foldl (subscribedStep v) true = true := by
  intro r
  induction r with
  | nil => intro _; rfl
  | cons a r ih =>
    intro h
    have hr := ih (fun b hb => h b (by simp [hb]))
    have ha := h a (by simp)
    cases a <;> simp_all [subscribedStep]
    case subscribe w err => cases err <;> simp_all

/-- Every call of every execution, classified by the statement of `main` that makes it,
with the arguments that statement passes. -/
theorem main_mem (env : Env) (sched : List Bool) (fuel : Nat) (e : Event)
    (he : e ∈ main env sched fuel) :
    e = Event.newExporter Options.zero env.newExporter ∨
    (∃ x, env.newExporter = Result.ok x ∧ e = Event.registerExporter x) ∨
    e = Event.newMeasureInt64 "my.org/measures/video_count" "number of processed videos" ""
      env.newMeasureInt64 ∨
    (∃ m, env.newMeasureInt64 = Result.ok m ∧
      e = Event.newView "video_count" "processed video size over time" [] m
        Aggregation.count Window.cumulative env.newView) ∨
    e = Event.setReportingPeriod 1000000000 ∨
    (∃ v, env.newView = Result.ok v ∧ e = Event.subscribe v env.subscribe) ∨
    (∃ msg, e = Event.logFatal msg) ∨
    e = Event.go ∨
    e = Event.println "Wait longer than the reporting duration..." ∨
    (∃ x, env.newExporter = Result.ok x ∧ e = Event.httpHandle "/metrics" x) ∨
    e = Event.listenAndServe ":9999" none ∨
    (∃ m, env.newMeasureInt64 = Result.ok m ∧ e = Event.record Context.Background [m.M 1]) ∨
    ∃ d, e = Event.after d := by
  rcases main_cases env sched fuel with ⟨err, h1, h⟩ | ⟨x, err, h1, h2, h⟩ |
    ⟨x, m, err, h1, h2, h3, h⟩ | ⟨x, m, v, err, h1, h2, h3, h4, h⟩ |
    ⟨x, m, v, h1, h2, h3, h4, h⟩
  · rw [h] at he; simp only [List.mem_cons, List.mem_singleton, List.not_mem_nil, or_false] at he
    rcases he with rfl | rfl <;> simp [h1]
  · rw [h] at he; simp only [List.mem_cons, List.mem_singleton, List.not_mem_nil, or_false] at he
    rcases he with rfl | rfl | rfl | rfl <;> simp [h1, h2]
  · rw [h] at he; simp only [List.mem_cons, List.mem_singleton, List.not_mem_nil, or_false] at he
    rcases he with rfl | rfl | rfl | rfl | rfl <;> simp [h1, h2, h3]
  · rw [h] at he; simp only [List.mem_cons, List.mem_singleton, List.not_mem_nil, or_false] at he
    rcases he with rfl | rfl | rfl | rfl | rfl | rfl | rfl <;> simp [h1, h2, h3, h4]
  · rw [h] at he
    simp only [List.mem_append, List.mem_cons, setupCalls, List.mem_singleton,
      List.not_mem_nil, or_false] at he
    rcases he with (rfl | rfl | rfl | rfl | rfl | rfl) | rfl | he
    · simp [h1]
    · simp [h1]
    · simp [h2]
    · simp [h2, h3]
    · simp
    · simp [h3, h4]
    · simp
    · rcases tail_mem env x m sched fuel _ he with rfl | rfl | rfl | ⟨_, rfl⟩ | rfl | ⟨_, rfl⟩
      · simp
      · simp [h1]
      · simp
      · simp
      · simp [h2]
      · simp

theorem tail_countP_zero (env : Env) (x : Exporter) (m : MeasureInt64) (s : List Bool)
    (fuel : Nat) (p : Event → Bool)
    (h1 : p (Event.println "Wait longer than the reporting duration...") = false)
    (h2 : p (Event.httpHandle "/metrics" x) = false)
    (h3 : p (Event.listenAndServe ":9999" none) = false)
    (h4 : ∀ msg, p (Event.logFatal msg) = false)
    (h5 : p (Event.record Context.Background [m.M 1]) = false)
    (h6 : ∀ d, p (Event.after d) = false) :
    (interleave s (serve env x []).1 (recorder env Context.Background m 0 fuel)).countP p
      = 0 := by
  rw [List.countP_eq_zero]
  intro e he
  rcases tail_mem env x m s fuel e he with rfl | rfl | rfl | ⟨_, rfl⟩ | rfl | ⟨_, rfl⟩ <;>
    simp [*]

theorem recorder_countP_zero (env : Env) (ctx : Context) (m : MeasureInt64) (p : Event → Bool)
    (h5 : p (Event.record ctx [m.M 1]) = false) (h6 : ∀ d, p (Event.after d) = false)
    (i fuel : Nat) : (recorder env ctx m i fuel).countP p = 0 := by
  rw [List.countP_eq_zero]
  intro e he
  rcases recorder_mem env ctx m e _ _ he with rfl | ⟨_, rfl⟩ <;> simp [*]

/-- Record, http.Handle and http.ListenAndServe calls occur only when all four checked
setup calls succeeded. -/
theorem startup_ok_of_served (env : Env) (sched : List Bool) (fuel : Nat) (e : Event)
    (he : e ∈ main env sched fuel)
    (hk : e.isRecord = true ∨ e.isHandle = true ∨ e.isListen = true) :
    ∃ x m v, env.newExporter = Result.ok x ∧ env.newMeasureInt64 = Result.ok m ∧
      env.newView = Result.ok v ∧ env.subscribe = none := by
  rcases main_cases env sched fuel with ⟨err, -, h⟩ | ⟨x, err, -, -, h⟩ |
    ⟨x, m, err, -, -, -, h⟩ | ⟨x, m, v, err, -, -, -, -, h⟩ | ⟨x, m, v, h1, h2, h3, h4, -⟩
  · rw [h] at he; simp at he
    rcases he with rfl | rfl <;> simp [Event.isRecord, Event.isHandle, Event.isListen] at hk
  · rw [h] at he; simp at he
    rcases he with rfl | rfl | rfl | rfl <;>
      simp [Event.isRecord, Event.isHandle, Event.isListen] at hk
  · rw [h] at he; simp at he
    rcases he with rfl | rfl | rfl | rfl | rfl <;>
      simp [Event.isRecord, Event.isHandle, Event.isListen] at hk
  · rw [h] at he; simp at he
    rcases he with rfl | rfl | rfl | rfl | rfl | rfl | rfl <;>
      simp [Event.isRecord, Event.isHandle, Event.isListen] at hk
  · exact ⟨x, m, v, h1, h2, h3, h4⟩

theorem tail_filterMap_nil {β : Type} (env : Env) (x : Exporter) (m : MeasureInt64)
    (s : List Bool) (fuel : Nat) (f : Event → Option β)
    (h1 : f (Event.println "Wait longer than the reporting duration...") = none)
    (h2 : f (Event.httpHandle "/metrics" x) = none)
    (h3 : f (Event.listenAndServe ":9999" none) = none)
    (h4 : ∀ msg, f (Event.logFatal msg) = none)
    (h5 : f (Event.record Context.Background [m.M 1]) = none)
    (h6 : ∀ d, f (Event.after d) = none) :
    (interleave s (serve env x []).1 (recorder env Context.Background m 0 fuel)).filterMap f
      = [] := by
  rw [List.filterMap_eq_nil_iff]
  intro e he
  rcases tail_mem env x m s fuel e he with rfl | rfl | rfl | ⟨_, rfl⟩ | rfl | ⟨_, rfl⟩ <;>
    simp [*]

theorem periods_nil (r : List Event) (h : ∀ a ∈ r, ∀ d, a ≠ Event.setReportingPeriod d) :
    periods r = [] := by
  unfold periods
  rw [List.filterMap_eq_nil_iff]
  intro a ha
  cases a with
  | setReportingPeriod d => exact absurd rfl (h _ ha d)
  | _ => rfl

theorem second_value : Second = 1000000000 := by
  simp [Second, Millisecond, Microsecond, Nanosecond]

theorem count_fold (v : View) (m : MeasureInt64) :
    ∀ (t : List Event) (c : Nat),
      (∀ e ∈ t, e = Event.record Context.Background [m.M 1] ∨
        (e.isRecord = false ∧ ∀ w err, e ≠ Event.unsubscribe w err)) →
      t.foldl (countStep v [] m) (some c) = some (c + t.countP Event.isRecord) := by
  intro t
  induction t with
  | nil => intro c _; simp
  | cons a t ih =>
    intro c h
    have ht := fun e he => h e (List.mem_cons_of_mem a he)
    rcases h a (by simp) with rfl | ⟨hr, hu⟩
    · have hstep : countStep v [] m (some c) (Event.record Context.Background [m.M 1])
          = some (c + 1) := by
        simp [countStep, tagsMatch, MeasureInt64.M]
      have hrec : Event.isRecord (Event.record Context.Background [m.M 1]) = true := rfl
      rw [List.foldl_cons, hstep, ih (c + 1) ht, List.countP_cons_of_pos _ _ hrec]
      congr 1; omega
    · have hstep : countStep v [] m (some c) a = some c := by
        cases a with
        | record ctx ms => exact absurd hr (by simp [Event.isRecord])
        | unsubscribe w err => exact absurd rfl (hu w err)
        | _ => rfl
      have hrec : ¬ Event.isRecord a = true := by rw [hr]; exact Bool.false_ne_true
      rw [List.foldl_cons, hstep, ih c ht, List.countP_cons_of_neg _ _ hrec]

/-- C1: startup is fatal on error.  Whichever of the four checked setup calls
(NewExporter, NewMeasureInt64, NewView, Subscribe) is the first to return an error, the
execution consists of the calls up to and including that one followed by the fatal log and
nothing else; and Record, http.Handle and http.ListenAndServe occur only in executions in
which all four calls succeeded. -/
theorem startup_fatal_on_error (env : Env) (sched : List Bool) (fuel : Nat) :
    (∀ err, env.newExporter = Result.error err →
      main env sched fuel =
        [Event.newExporter Options.zero (Result.error err), Event.logFatal err]) ∧
    (∀ x err, env.newExporter = Result.ok x → env.newMeasureInt64 = Result.error err →
      main env sched fuel =
        [Event.newExporter Options.zero (Result.ok x),
         Event.registerExporter x,
         Event.newMeasureInt64 "my.org/measures/video_count" "number of processed videos" ""
           (Result.error err),
         Event.logFatal ("Video size measure not created: " ++ err)]) ∧
    (∀ x m err, env.newExporter = Result.ok x → env.newMeasureInt64 = Result.ok m →
      env.newView = Result.error err →
      main env sched fuel =
        [Event.newExporter Options.zero (Result.ok x),
         Event.registerExporter x,
         Event.newMeasureInt64 "my.org/measures/video_count" "number of processed videos" ""
           (Result.ok m),
         Event.newView "video_count" "processed video size over time" [] m
           Aggregation.count Window.cumulative (Result.error err),
         Event.logFatal ("Cannot create view: " ++ err)]) ∧
    (∀ x m v err, env.newExporter = Result.ok x → env.newMeasureInt64 = Result.ok m →
      env.newView = Result.ok v → env.subscribe = some err →
      main env sched fuel =
        [Event.newExporter Options.zero (Result.ok x),
         Event.registerExporter x,
         Event.newMeasureInt64 "my.org/measures/video_count" "number of processed videos" ""
           (Result.ok m),
         Event.newView "video_count" "processed video size over time" [] m
           Aggregation.count Window.cumulative (Result.ok v),
         Event.setReportingPeriod 1000000000,
         Event.subscribe v (some err),
         Event.logFatal ("Cannot subscribe to the view: " ++ err)]) ∧
    (∀ e ∈ main env sched fuel,
      e.isRecord = true ∨ e.isHandle = true ∨ e.isListen = true →
      ∃ x m v, env.newExporter = Result.ok x ∧ env.newMeasureInt64 = Result.ok m ∧
        env.newView = Result.ok v ∧ env.subscribe = none) := by
  exact ⟨main_newExporter_error env sched fuel, main_newMeasure_error env sched fuel,
    main_newView_error env sched fuel, main_subscribe_error env sched fuel,
    startup_ok_of_served env sched fuel⟩

/-- Instance of C1: when Subscribe fails, the execution stops with the fatal log right
after the Subscribe call, whatever the schedule. -/
theorem startup_fatal_on_error_witness :
    envNoSubscribe.newExporter = Result.ok ⟨1⟩ ∧
    envNoSubscribe.newMeasureInt64 = Result.ok ⟨2⟩ ∧
    envNoSubscribe.newView = Result.ok ⟨3⟩ ∧
    envNoSubscribe.subscribe = some "duplicate view" ∧
    main envNoSubscribe [false, true, false] 2 =
      [Event.newExporter Options.zero (Result.ok ⟨1⟩),
       Event.registerExporter ⟨1⟩,
       Event.newMeasureInt64 "my.org/measures/video_count" "number of processed videos" ""
         (Result.ok ⟨2⟩),
       Event.newView "video_count" "processed video size over time" [] ⟨2⟩
         Aggregation.count Window.cumulative (Result.ok ⟨3⟩),
       Event.setReportingPeriod 1000000000,
       Event.subscribe ⟨3⟩ (some "duplicate view"),
       Event.logFatal ("Cannot subscribe to the view: " ++ "duplicate view")] :=
  ⟨rfl, rfl, rfl, rfl,
    (startup_fatal_on_error envNoSubscribe [false, true, false] 2).2.2.2.1
      ⟨1⟩ ⟨2⟩ ⟨3⟩ "duplicate view" rfl rfl rfl rfl⟩

/-- C8: in every execution, every Record call comes after a Subscribe call on the view
created by NewView that returned no error, at which point the view is subscribed; the
recording goroutine is started only after that successful Subscribe; and the program never
makes an unsubscribe call. -/
theorem record_only_while_subscribed (env : Env) (sched : List Bool) (fuel : Nat) :
    (∀ p q ctx ms, main env sched fuel = p ++ Event.record ctx ms :: q →
      ∃ v, env.newView = Result.ok v ∧ Event.subscribe v none ∈ p ∧ subscribed v p = true) ∧
    (∀ p q, main env sched fuel = p ++ Event.go :: q →
      ∃ v, env.newView = Result.ok v ∧ Event.subscribe v none ∈ p) ∧
    (∀ v err, Event.unsubscribe v err ∉ main env sched fuel) := by
  rcases main_cases env sched fuel with ⟨err, -, h⟩ | ⟨x, err, -, -, h⟩ |
    ⟨x, m, err, -, -, -, h⟩ | ⟨x, m, v, err, -, -, -, -, h⟩ | ⟨x, m, v, -, -, h3, -, h⟩
  · refine ⟨fun p q ctx ms hc => ?_, fun p q hc => ?_, fun v e => ?_⟩
    · have := mem_of_cut _ _ _ _ hc; rw [h] at this; simp at this
    · have := mem_of_cut _ _ _ _ hc; rw [h] at this; simp at this
    · rw [h]; simp
  · refine ⟨fun p q ctx ms hc => ?_, fun p q hc => ?_, fun v e => ?_⟩
    · have := mem_of_cut _ _ _ _ hc; rw [h] at this; simp at this
    · have := mem_of_cut _ _ _ _ hc; rw [h] at this; simp at this
    · rw [h]; simp
  · refine ⟨fun p q ctx ms hc => ?_, fun p q hc => ?_, fun v e => ?_⟩
    · have := mem_of_cut _ _ _ _ hc; rw [h] at this; simp at this
    · have := mem_of_cut _ _ _ _ hc; rw [h] at this; simp at this
    · rw [h]; simp
  · refine ⟨fun p q ctx ms hc => ?_, fun p q hc => ?_, fun v e => ?_⟩
    · have := mem_of_cut _ _ _ _ hc; rw [h] at this; simp at this
    · have := mem_of_cut _ _ _ _ hc; rw [h] at this; simp at this
    · rw [h]; simp
  · refine ⟨fun p q ctx ms hc => ?_, fun p q hc => ?_, fun w e hw => ?_⟩
    · rw [h] at hc
      obtain ⟨r, hp, hr⟩ := cut_after _ _ _ _ _ hc (by simp [setupCalls])
      refine ⟨v, h3, by rw [hp]; simp [setupCalls], ?_⟩
      rw [hp, subscribed, List.foldl_append]
      have h0 : (setupCalls x m v).foldl (subscribedStep v) false = true := by
        simp [setupCalls, subscribedStep]
      rw [h0]
      apply subscribed_keep
      intro a ha w e hae
      have hmem : a ∈ Event.go ::
          interleave sched (serve env x []).1 (recorder env Context.Background m 0 fuel) := by
        rw [hr]; simp [ha]
      rw [hae] at hmem
      simp only [List.mem_cons] at hmem
      rcases hmem with hm | hm
      · cases hm
      · rcases tail_mem env x m sched fuel _ hm with h | h | h | ⟨_, h⟩ | h | ⟨_, h⟩ <;> cases h
    · rw [h] at hc
      obtain ⟨r, hp, -⟩ := cut_after _ _ _ _ _ hc (by simp [setupCalls])
      exact ⟨v, h3, by rw [hp]; simp [setupCalls]⟩
    · rw [h] at hw
      simp only [List.mem_append, List.mem_cons] at hw
      rcases hw with hw | hw | hw
      · simp [setupCalls] at hw
      · cases hw
      · rcases tail_mem env x m sched fuel _ hw with h | h | h | ⟨_, h⟩ | h | ⟨_, h⟩ <;> cases h

/-- Instance of C8: in a run with two Record calls, the second one is preceded by the
successful Subscribe and finds the view subscribed. -/
theorem record_only_while_subscribed_witness :
    main envOk [false, false, true, false] 3 =
      (setupCalls ⟨1⟩ ⟨2⟩ ⟨3⟩ ++
        [Event.go, Event.record Context.Background [⟨⟨2⟩, 1⟩], Event.after 1000000,
         Event.println "Wait longer than the reporting duration..."]) ++
      Event.record Context.Background [⟨⟨2⟩, 1⟩] :: [] ∧
    ∃ v, envOk.newView = Result.ok v ∧
      Event.subscribe v none ∈
        (setupCalls ⟨1⟩ ⟨2⟩ ⟨3⟩ ++
          [Event.go, Event.record Context.Background [⟨⟨2⟩, 1⟩], Event.after 1000000,
           Event.println "Wait longer than the reporting duration..."]) ∧
      subscribed v
        (setupCalls ⟨1⟩ ⟨2⟩ ⟨3⟩ ++
          [Event.go, Event.record Context.Background [⟨⟨2⟩, 1⟩], Event.after 1000000,
           Event.println "Wait longer than the reporting duration..."]) = true :=
  ⟨by decide, (record_only_while_subscribed envOk [false, false, true, false] 3).1
    (setupCalls ⟨1⟩ ⟨2⟩ ⟨3⟩ ++
      [Event.go, Event.record Context.Background [⟨⟨2⟩, 1⟩], Event.after 1000000,
       Event.println "Wait longer than the reporting duration..."])
    [] Context.Background [⟨⟨2⟩, 1⟩] (by decide)⟩

/-- C9: the exporter returned by NewExporter is the value passed to RegisterExporter and
the value installed by http.Handle, under the pattern "/metrics"; NewExporter is called
exactly once and http.Handle at most once; the server is started on ":9999" with no
handler of its own; and every http.Handle and http.ListenAndServe call comes after the
RegisterExporter call and after the Subscribe call that returned no error. -/
theorem exporter_wiring (env : Env) (sched : List Bool) (fuel : Nat) :
    (main env sched fuel).countP Event.isNewExporter = 1 ∧
    (main env sched fuel).countP Event.isHandle ≤ 1 ∧
    (∀ o r, Event.newExporter o r ∈ main env sched fuel → r = env.newExporter) ∧
    (∀ x, Event.registerExporter x ∈ main env sched fuel → env.newExporter = Result.ok x) ∧
    (∀ pattern x, Event.httpHandle pattern x ∈ main env sched fuel →
      pattern = "/metrics" ∧ env.newExporter = Result.ok x) ∧
    (∀ addr handler, Event.listenAndServe addr handler ∈ main env sched fuel →
      addr = ":9999" ∧ handler = none) ∧
    (∀ p q e, main env sched fuel = p ++ e :: q → e.isHandle = true ∨ e.isListen = true →
      ∃ x v, env.newExporter = Result.ok x ∧ env.newView = Result.ok v ∧
        Event.registerExporter x ∈ p ∧ Event.subscribe v none ∈ p) := by
  refine ⟨?_, ?_, ?_, ?_, ?_, ?_, ?_⟩
  · rcases main_cases env sched fuel with ⟨err, -, h⟩ | ⟨x, err, -, -, h⟩ |
      ⟨x, m, err, -, -, -, h⟩ | ⟨x, m, v, err, -, -, -, -, h⟩ | ⟨x, m, v, -, -, -, -, h⟩
    · rw [h]; simp [Event.isNewExporter]
    · rw [h]; simp [Event.isNewExporter]
    · rw [h]; simp [Event.isNewExporter]
    · rw [h]; simp [Event.isNewExporter]
    · rw [h, List.countP_append, List.countP_cons,
        tail_countP_zero env x m sched fuel Event.isNewExporter rfl rfl rfl
          (fun _ => rfl) rfl (fun _ => rfl)]
      simp [setupCalls, Event.isNewExporter]
  · rcases main_cases env sched fuel with ⟨err, -, h⟩ | ⟨x, err, -, -, h⟩ |
      ⟨x, m, err, -, -, -, h⟩ | ⟨x, m, v, err, -, -, -, -, h⟩ | ⟨x, m, v, -, -, -, -, h⟩
    · rw [h]; simp [Event.isHandle]
    · rw [h]; simp [Event.isHandle]
    · rw [h]; simp [Event.isHandle]
    · rw [h]; simp [Event.isHandle]
    · have hle := interleave_countP_le Event.isHandle sched (serve env x []).1
        (recorder env Context.Background m 0 fuel)
      have hrec := recorder_countP_zero env Context.Background m Event.isHandle rfl
        (fun _ => rfl) 0 fuel
      have hserve : (serve env x []).1.countP Event.isHandle = 1 := by
        rcases serve_calls env x with ⟨-, hs⟩ | ⟨err, -, hs⟩ <;>
          rw [hs] <;> simp [Event.isHandle]
      rw [h, List.countP_append, List.countP_cons]
      have hset : (setupCalls x m v).countP Event.isHandle = 0 := by
        simp [setupCalls, Event.isHandle]
      simp only [hset, Event.isHandle]
      simp at hle ⊢
      omega
  · intro o r h
    rcases main_mem env sched fuel _ h with h | ⟨_, _, h⟩ | h | ⟨_, _, h⟩ | h | ⟨_, _, h⟩ |
      ⟨_, h⟩ | h | h | ⟨_, _, h⟩ | h | ⟨_, _, h⟩ | ⟨_, h⟩ <;> cases h
    rfl
  · intro x h
    rcases main_mem env sched fuel _ h with h | ⟨_, hx, h⟩ | h | ⟨_, _, h⟩ | h | ⟨_, _, h⟩ |
      ⟨_, h⟩ | h | h | ⟨_, _, h⟩ | h | ⟨_, _, h⟩ | ⟨_, h⟩ <;> cases h
    exact hx
  · intro pattern x h
    rcases main_mem env sched fuel _ h with h | ⟨_, _, h⟩ | h | ⟨_, _, h⟩ | h | ⟨_, _, h⟩ |
      ⟨_, h⟩ | h | h | ⟨_, hx, h⟩ | h | ⟨_, _, h⟩ | ⟨_, h⟩ <;> cases h
    exact ⟨rfl, hx⟩
  · intro addr handler h
    rcases main_mem env sched fuel _ h with h | ⟨_, _, h⟩ | h | ⟨_, _, h⟩ | h | ⟨_, _, h⟩ |
      ⟨_, h⟩ | h | h | ⟨_, _, h⟩ | h | ⟨_, _, h⟩ | ⟨_, h⟩ <;> cases h
    exact ⟨rfl, rfl⟩
  · intro p q e hc hk
    have hk2 : e.isRecord = true ∨ e.isHandle = true ∨ e.isListen = true := Or.inr hk
    obtain ⟨x, m, v, h1, h2, h3, h4⟩ :=
      (startup_ok_of_served env sched fuel e (mem_of_cut _ _ _ _ hc) hk2)
    have h := main_setup_ok env sched fuel x m v h1 h2 h3 h4
    rw [h] at hc
    have hnot : e ∉ setupCalls x m v := by
      intro hm
      simp only [setupCalls, List.mem_cons, List.mem_singleton, List.not_mem_nil,
        or_false] at hm
      rcases hm with rfl | rfl | rfl | rfl | rfl | rfl <;>
        simp [Event.isHandle, Event.isListen] at hk
    obtain ⟨r, hp, -⟩ := cut_after _ _ _ _ _ hc hnot
    exact ⟨x, v, h1, h3, by rw [hp]; simp [setupCalls], by rw [hp]; simp [setupCalls]⟩

/-- Instance of C9: in a run that reaches the server, the handler installed under
"/metrics" is exporter 1, the one NewExporter returned, and its registration and the
successful Subscribe precede the installation. -/
theorem exporter_wiring_witness :
    main envNoServer [true, true, true, true] 0 =
      (setupCalls ⟨1⟩ ⟨2⟩ ⟨3⟩ ++
        [Event.go, Event.println "Wait longer than the reporting duration..."]) ++
      Event.httpHandle "/metrics" ⟨1⟩ ::
        [Event.listenAndServe ":9999" none, Event.logFatal "address in use"] ∧
    (Event.httpHandle "/metrics" ⟨1⟩).isHandle = true ∧
    ∃ x v, envNoServer.newExporter = Result.ok x ∧ envNoServer.newView = Result.ok v ∧
      Event.registerExporter x ∈
        (setupCalls ⟨1⟩ ⟨2⟩ ⟨3⟩ ++
          [Event.go, Event.println "Wait longer than the reporting duration..."]) ∧
      Event.subscribe v none ∈
        (setupCalls ⟨1⟩ ⟨2⟩ ⟨3⟩ ++
          [Event.go, Event.println "Wait longer than the reporting duration..."]) :=
  ⟨by decide, rfl,
    (exporter_wiring envNoServer [true, true, true, true] 0).2.2.2.2.2.2
      (setupCalls ⟨1⟩ ⟨2⟩ ⟨3⟩ ++
        [Event.go, Event.println "Wait longer than the reporting duration..."])
      [Event.listenAndServe ":9999" none, Event.logFatal "address in use"]
      (Event.httpHandle "/metrics" ⟨1⟩) (by decide) (Or.inl rfl)⟩

/-- C3: at most one view is created; it is created with no group-by tag keys, Count
aggregation and the Cumulative window, over the int64 measure that NewMeasureInt64
returned earlier in the execution; the view that is subscribed is that view; every Record
call carries the background context, which has no tags, and the single measurement of
value 1 for that measure; so the tag keys of the context are exactly the view's tag keys
and the tag check of the Recorder passes. -/
theorem view_configuration (env : Env) (sched : List Bool) (fuel : Nat) :
    (main env sched fuel).countP Event.isNewView ≤ 1 ∧
    (∀ name desc keys m agg w r, Event.newView name desc keys m agg w r ∈ main env sched fuel →
      keys = [] ∧ agg = Aggregation.count ∧ w = Window.cumulative ∧
        env.newMeasureInt64 = Result.ok m ∧ r = env.newView) ∧
    (∀ p q name desc keys m agg w r,
      main env sched fuel = p ++ Event.newView name desc keys m agg w r :: q →
      ∃ n d u, Event.newMeasureInt64 n d u (Result.ok m) ∈ p) ∧
    (∀ v err, Event.subscribe v err ∈ main env sched fuel → env.newView = Result.ok v) ∧
    (∀ ctx ms, Event.record ctx ms ∈ main env sched fuel →
      ctx = Context.Background ∧ ctx.tags = [] ∧
        ∃ m, env.newMeasureInt64 = Result.ok m ∧ ms = [⟨m, 1⟩]) ∧
    (∀ name desc keys m agg w r ctx ms,
      Event.newView name desc keys m agg w r ∈ main env sched fuel →
      Event.record ctx ms ∈ main env sched fuel →
      ctx.tags.map Prod.fst = keys ∧ tagsMatch keys ctx = true) := by
  have hview : ∀ name desc keys m agg w r,
      Event.newView name desc keys m agg w r ∈ main env sched fuel →
      keys = [] ∧ agg = Aggregation.count ∧ w = Window.cumulative ∧
        env.newMeasureInt64 = Result.ok m ∧ r = env.newView := by
    intro name desc keys m agg w r h
    rcases main_mem env sched fuel _ h with h | ⟨_, _, h⟩ | h | ⟨_, hm, h⟩ | h | ⟨_, _, h⟩ |
      ⟨_, h⟩ | h | h | ⟨_, _, h⟩ | h | ⟨_, _, h⟩ | ⟨_, h⟩ <;> cases h
    exact ⟨rfl, rfl, rfl, hm, rfl⟩
  have hrec : ∀ ctx ms, Event.record ctx ms ∈ main env sched fuel →
      ctx = Context.Background ∧ ctx.tags = [] ∧
        ∃ m, env.newMeasureInt64 = Result.ok m ∧ ms = [⟨m, 1⟩] := by
    intro ctx ms h
    rcases main_mem env sched fuel _ h with h | ⟨_, _, h⟩ | h | ⟨_, _, h⟩ | h | ⟨_, _, h⟩ |
      ⟨_, h⟩ | h | h | ⟨_, _, h⟩ | h | ⟨m, hm, h⟩ | ⟨_, h⟩ <;> cases h
    exact ⟨rfl, rfl, m, hm, rfl⟩
  refine ⟨?_, hview, ?_, ?_, hrec, ?_⟩
  · rcases main_cases env sched fuel with ⟨err, -, h⟩ | ⟨x, err, -, -, h⟩ |
      ⟨x, m, err, -, -, -, h⟩ | ⟨x, m, v, err, -, -, -, -, h⟩ | ⟨x, m, v, -, -, -, -, h⟩
    · rw [h]; simp [Event.isNewView]
    · rw [h]; simp [Event.isNewView]
    · rw [h]; simp [Event.isNewView]
    · rw [h]; simp [Event.isNewView]
    · rw [h, List.countP_append, List.countP_cons,
        tail_countP_zero env x m sched fuel Event.isNewView rfl rfl rfl
          (fun _ => rfl) rfl (fun _ => rfl)]
      simp [setupCalls, Event.isNewView]
  · intro p q name desc keys m agg w r hc
    have hm := (hview _ _ _ _ _ _ _ (mem_of_cut _ _ _ _ hc)).2.2.2.1
    rcases main_cases env sched fuel with ⟨err, -, h⟩ | ⟨x, err, -, h2, h⟩ |
      ⟨x, m0, err, -, h2, -, h⟩ | ⟨x, m0, v, err, -, h2, -, -, h⟩ |
      ⟨x, m0, v, -, h2, -, -, h⟩
    · have hmem := mem_of_cut _ _ _ _ hc
      rw [h] at hmem; simp at hmem
    · rw [hm] at h2; cases h2
    · rw [hm] at h2; cases h2
      rw [h] at hc
      exact ⟨"my.org/measures/video_count", "number of processed videos", "", mem_before_cut
        [Event.newExporter Options.zero (Result.ok x), Event.registerExporter x,
          Event.newMeasureInt64 "my.org/measures/video_count" "number of processed videos" ""
            (Result.ok m)] _ p q _ _ hc (by simp) (by simp)⟩
    · rw [hm] at h2; cases h2
      rw [h] at hc
      exact ⟨"my.org/measures/video_count", "number of processed videos", "", mem_before_cut
        [Event.newExporter Options.zero (Result.ok x), Event.registerExporter x,
          Event.newMeasureInt64 "my.org/measures/video_count" "number of processed videos" ""
            (Result.ok m)] _ p q _ _ hc (by simp) (by simp)⟩
    · rw [hm] at h2; cases h2
      rw [h] at hc
      exact ⟨"my.org/measures/video_count", "number of processed videos", "", mem_before_cut
        [Event.newExporter Options.zero (Result.ok x), Event.registerExporter x,
          Event.newMeasureInt64 "my.org/measures/video_count" "number of processed videos" ""
            (Result.ok m)] _ p q _ _ hc (by simp) (by simp)⟩
  · intro v err h
    rcases main_mem env sched fuel _ h with h | ⟨_, _, h⟩ | h | ⟨_, _, h⟩ | h | ⟨_, hv, h⟩ |
      ⟨_, h⟩ | h | h | ⟨_, _, h⟩ | h | ⟨_, _, h⟩ | ⟨_, h⟩ <;> cases h
    exact hv
  · intro name desc keys m agg w r ctx ms h1 h2
    obtain ⟨rfl, -⟩ := hview _ _ _ _ _ _ _ h1
    obtain ⟨rfl, -⟩ := hrec _ _ h2
    exact ⟨rfl, rfl⟩

/-- Instance of C3: in a run with one Record call, the view is created over measure 2,
which NewMeasureInt64 returned before the NewView call. -/
theorem view_configuration_witness :
    main envOk [false] 1 =
      [Event.newExporter Options.zero (Result.ok ⟨1⟩), Event.registerExporter ⟨1⟩,
        Event.newMeasureInt64 "my.org/measures/video_count" "number of processed videos" ""
          (Result.ok ⟨2⟩)] ++
      Event.newView "video_count" "processed video size over time" [] ⟨2⟩
          Aggregation.count Window.cumulative (Result.ok ⟨3⟩) ::
        [Event.setReportingPeriod 1000000000, Event.subscribe ⟨3⟩ none, Event.go,
          Event.record Context.Background [⟨⟨2⟩, 1⟩]] ∧
    ∃ n d u, Event.newMeasureInt64 n d u (Result.ok ⟨2⟩) ∈
      [Event.newExporter Options.zero (Result.ok ⟨1⟩), Event.registerExporter ⟨1⟩,
        Event.newMeasureInt64 "my.org/measures/video_count" "number of processed videos" ""
          (Result.ok ⟨2⟩)] :=
  ⟨by decide,
    (view_configuration envOk [false] 1).2.2.1
      [Event.newExporter Options.zero (Result.ok ⟨1⟩), Event.registerExporter ⟨1⟩,
        Event.newMeasureInt64 "my.org/measures/video_count" "number of processed videos" ""
          (Result.ok ⟨2⟩)]
      [Event.setReportingPeriod 1000000000, Event.subscribe ⟨3⟩ none, Event.go,
        Event.record Context.Background [⟨⟨2⟩, 1⟩]]
      "video_count" "processed video size over time" [] ⟨2⟩
      Aggregation.count Window.cumulative (Result.ok ⟨3⟩) (by decide)⟩

/-- C4, as stated, fails: when NewExporter returns an error, main exits at its first check
and never sets the reporting period, so the period is not set exactly once. -/
theorem reporting_period_unset_on_early_exit :
    main envNoExporter [] 0 =
      [Event.newExporter Options.zero (Result.error "no exporter"),
       Event.logFatal "no exporter"] ∧
    periods (main envNoExporter [] 0) = [] ∧
    ¬ (periods (main envNoExporter [] 0)).length = 1 := by
  decide

/-- C4, amended: one second is 1,000,000,000 nanoseconds and positive; in every execution
the reporting period is set at most once and only ever to one second; in every execution
in which NewExporter, NewMeasureInt64 and NewView succeed it is set exactly once; at
every Subscribe call and every Record call it has already been set exactly once, to one
second; and in every execution in which NewExporter, NewMeasureInt64 or NewView fails it
is never set. -/
theorem reporting_period_set_once_when_reached (env : Env) (sched : List Bool) (fuel : Nat) :
    1 * Second = 1000000000 ∧ (0 : Duration) < 1 * Second ∧
    (periods (main env sched fuel)).length ≤ 1 ∧
    (∀ d ∈ periods (main env sched fuel), d = 1 * Second) ∧
    (∀ x m v, env.newExporter = Result.ok x → env.newMeasureInt64 = Result.ok m →
      env.newView = Result.ok v → periods (main env sched fuel) = [1 * Second]) ∧
    (∀ p q e, main env sched fuel = p ++ e :: q →
      e.isSubscribe = true ∨ e.isRecord = true → periods p = [1 * Second]) ∧
    (∀ err, env.newExporter = Result.error err ∨ env.newMeasureInt64 = Result.error err ∨
      env.newView = Result.error err → periods (main env sched fuel) = []) := by
  have hsec : 1 * Second = 1000000000 := by rw [second_value]; rfl
  have htail : ∀ x m, periods
      (interleave sched (serve env x []).1 (recorder env Context.Background m 0 fuel)) = [] :=
    fun x m => tail_filterMap_nil env x m sched fuel _ rfl rfl rfl (fun _ => rfl) rfl
      (fun _ => rfl)
  have hall : periods (main env sched fuel) = [] ∨
      periods (main env sched fuel) = [1000000000] := by
    rcases main_cases env sched fuel with ⟨err, -, h⟩ | ⟨x, err, -, -, h⟩ |
      ⟨x, m, err, -, -, -, h⟩ | ⟨x, m, v, err, -, -, -, -, h⟩ | ⟨x, m, v, -, -, -, -, h⟩
    · left; rw [h]; rfl
    · left; rw [h]; rfl
    · left; rw [h]; rfl
    · right; rw [h]; rfl
    · right
      have hperiods : periods (main env sched fuel) =
          periods (setupCalls x m v) ++ periods (Event.go ::
            interleave sched (serve env x []).1 (recorder env Context.Background m 0 fuel)) := by
        rw [h]; exact List.filterMap_append _ _ _
      have hgo : periods (Event.go ::
          interleave sched (serve env x []).1 (recorder env Context.Background m 0 fuel)) =
          periods (interleave sched (serve env x []).1
            (recorder env Context.Background m 0 fuel)) := rfl
      rw [hperiods, hgo, htail]; rfl
  refine ⟨hsec, by rw [hsec]; decide, ?_, ?_, ?_, ?_, ?_⟩
  rotate_right
  · intro err hfail
    rcases main_cases env sched fuel with ⟨e0, -, h⟩ | ⟨x, e0, -, -, h⟩ |
      ⟨x, m, e0, -, -, -, h⟩ | ⟨x, m, v, e0, g1, g2, g3, -, -⟩ | ⟨x, m, v, g1, g2, g3, -, -⟩
    · rw [h]; rfl
    · rw [h]; rfl
    · rw [h]; rfl
    · rcases hfail with hf | hf | hf
      · rw [g1] at hf; cases hf
      · rw [g2] at hf; cases hf
      · rw [g3] at hf; cases hf
    · rcases hfail with hf | hf | hf
      · rw [g1] at hf; cases hf
      · rw [g2] at hf; cases hf
      · rw [g3] at hf; cases hf
  · rcases hall with h | h <;> rw [h] <;> simp
  · intro d hd
    rcases hall with h | h
    · rw [h] at hd; simp at hd
    · rw [h] at hd; simp at hd; rw [hsec]; exact hd
  · intro x m v h1 h2 h3
    rw [hsec]
    rcases main_cases env sched fuel with ⟨err, g1, h⟩ | ⟨x0, err, -, g2, h⟩ |
      ⟨x0, m0, err, -, -, g3, h⟩ | ⟨x0, m0, v0, err, -, -, -, -, h⟩ |
      ⟨x0, m0, v0, -, -, -, -, h⟩
    · rw [h1] at g1; cases g1
    · rw [h2] at g2; cases g2
    · rw [h3] at g3; cases g3
    · rw [h]; rfl
    · rcases hall with g | g
      · rw [h] at g
        have : periods (setupCalls x0 m0 v0 ++ Event.go ::
            interleave sched (serve env x0 []).1 (recorder env Context.Background m0 0 fuel)) =
            periods (setupCalls x0 m0 v0) ++ periods (Event.go ::
            interleave sched (serve env x0 []).1 (recorder env Context.Background m0 0 fuel)) :=
          List.filterMap_append _ _ _
        rw [this] at g
        exact absurd g (by simp [periods, setupCalls])
      · exact g
  · intro p q e hc hk
    rw [hsec]
    have hmem := mem_of_cut _ _ _ _ hc
    rcases main_cases env sched fuel with ⟨err, -, h⟩ | ⟨x, err, -, -, h⟩ |
      ⟨x, m, err, -, -, -, h⟩ | ⟨x, m, v, err, -, -, -, -, h⟩ | ⟨x, m, v, -, -, -, -, h⟩
    · rw [h] at hmem; simp at hmem
      rcases hmem with rfl | rfl <;> simp [Event.isSubscribe, Event.isRecord] at hk
    · rw [h] at hmem; simp at hmem
      rcases hmem with rfl | rfl | rfl | rfl <;> simp [Event.isSubscribe, Event.isRecord] at hk
    · rw [h] at hmem; simp at hmem
      rcases hmem with rfl | rfl | rfl | rfl | rfl <;>
        simp [Event.isSubscribe, Event.isRecord] at hk
    · rw [h] at hc
      have hnot : e ∉ [Event.newExporter Options.zero (Result.ok x), Event.registerExporter x,
          Event.newMeasureInt64 "my.org/measures/video_count" "number of processed videos" ""
            (Result.ok m),
          Event.newView "video_count" "processed video size over time" [] m
            Aggregation.count Window.cumulative (Result.ok v),
          Event.setReportingPeriod 1000000000] := by
        intro hm
        simp only [List.mem_cons, List.mem_singleton, List.not_mem_nil, or_false] at hm
        rcases hm with rfl | rfl | rfl | rfl | rfl <;>
          simp [Event.isSubscribe, Event.isRecord] at hk
      obtain ⟨r, hp, hr⟩ := cut_after _
        [Event.subscribe v (some err), Event.logFatal ("Cannot subscribe to the view: " ++ err)]
        p q e hc hnot
      have hrnil : periods r = [] := by
        apply periods_nil
        intro a ha d had
        have : a ∈ [Event.subscribe v (some err),
            Event.logFatal ("Cannot subscribe to the view: " ++ err)] := by
          rw [hr]; simp [ha]
        rw [had] at this; simp at this
      rw [hp]
      have happ := List.filterMap_append
        [Event.newExporter Options.zero (Result.ok x), Event.registerExporter x,
          Event.newMeasureInt64 "my.org/measures/video_count" "number of processed videos" ""
            (Result.ok m),
          Event.newView "video_count" "processed video size over time" [] m
            Aggregation.count Window.cumulative (Result.ok v),
          Event.setReportingPeriod 1000000000] r
        (fun e => match e with
          | Event.setReportingPeriod d => some d
          | _ => none)
      unfold periods at hrnil ⊢
      rw [happ, hrnil]; rfl
    · rw [h] at hc
      have hnot : e ∉ [Event.newExporter Options.zero (Result.ok x), Event.registerExporter x,
          Event.newMeasureInt64 "my.org/measures/video_count" "number of processed videos" ""
            (Result.ok m),
          Event.newView "video_count" "processed video size over time" [] m
            Aggregation.count Window.cumulative (Result.ok v),
          Event.setReportingPeriod 1000000000] := by
        intro hm
        simp only [List.mem_cons, List.mem_singleton, List.not_mem_nil, or_false] at hm
        rcases hm with rfl | rfl | rfl | rfl | rfl <;>
          simp [Event.isSubscribe, Event.isRecord] at hk
      obtain ⟨r, hp, hr⟩ := cut_after _
        (Event.subscribe v none :: Event.go ::
          interleave sched (serve env x []).1 (recorder env Context.Background m 0 fuel))
        p q e hc hnot
      have hrnil : periods r = [] := by
        apply periods_nil
        intro a ha d had
        have : a ∈ Event.subscribe v none :: Event.go ::
            interleave sched (serve env x []).1 (recorder env Context.Background m 0 fuel) := by
          rw [hr]; simp [ha]
        rw [had] at this
        simp only [List.mem_cons] at this
        rcases this with h | h | h
        · cases h
        · cases h
        · rcases tail_mem env x m sched fuel _ h with h | h | h | ⟨_, h⟩ | h | ⟨_, h⟩ <;> cases h
      rw [hp]
      have happ := List.filterMap_append
        [Event.newExporter Options.zero (Result.ok x), Event.registerExporter x,
          Event.newMeasureInt64 "my.org/measures/video_count" "number of processed videos" ""
            (Result.ok m),
          Event.newView "video_count" "processed video size over time" [] m
            Aggregation.count Window.cumulative (Result.ok v),
          Event.setReportingPeriod 1000000000] r
        (fun e => match e with
          | Event.setReportingPeriod d => some d
          | _ => none)
      unfold periods at hrnil ⊢
      rw [happ, hrnil]; rfl

/-- Instance of amended C4: with all setup calls succeeding, the period is set exactly
once, to one second; when the measure or the view cannot be created, it is never set. -/
theorem reporting_period_set_once_when_reached_witness :
    (envOk.newExporter = Result.ok ⟨1⟩ ∧ envOk.newMeasureInt64 = Result.ok ⟨2⟩ ∧
      envOk.newView = Result.ok ⟨3⟩ ∧
      periods (main envOk [false, true, false] 2) = [1 * Second]) ∧
    (envNoMeasure.newMeasureInt64 = Result.error "duplicate name" ∧
      periods (main envNoMeasure [false, true, false] 2) = []) ∧
    (envNoView.newView = Result.error "bad view" ∧
      periods (main envNoView [false, true, false] 2) = []) :=
  ⟨⟨rfl, rfl, rfl,
      (reporting_period_set_once_when_reached envOk [false, true, false] 2).2.2.2.2.1
        ⟨1⟩ ⟨2⟩ ⟨3⟩ rfl rfl rfl⟩,
    ⟨rfl,
      (reporting_period_set_once_when_reached envNoMeasure [false, true, false] 2).2.2.2.2.2.2
        "duplicate name" (Or.inr (Or.inl rfl))⟩,
    ⟨rfl,
      (reporting_period_set_once_when_reached envNoView [false, true, false] 2).2.2.2.2.2.2
        "bad view" (Or.inr (Or.inr rfl))⟩⟩

/-- C5, as stated, fails: in a run where every call succeeds, the name passed to
NewMeasureInt64 is "my.org/measures/video_count", not "video_count", and the name passed
to NewView is "video_count", not "video_count_view". -/
theorem names_differ_from_scenario :
    measureNames (main envOk [] 0) = ["my.org/measures/video_count"] ∧
    viewNames (main envOk [] 0) = ["video_count"] ∧
    ¬ (measureNames (main envOk [] 0) = ["video_count"] ∨
      viewNames (main envOk [] 0) = ["video_count_view"]) := by
  decide

/-- C5, amended: the name string passed to NewMeasureInt64 is
"my.org/measures/video_count" and the name string passed to NewView is "video_count", in
every execution that makes these calls; the first is made whenever NewExporter succeeds,
the second whenever NewMeasureInt64 succeeds as well. -/
theorem measure_and_view_names (env : Env) (sched : List Bool) (fuel : Nat) :
    (∀ n ∈ measureNames (main env sched fuel), n = "my.org/measures/video_count") ∧
    (∀ n ∈ viewNames (main env sched fuel), n = "video_count") ∧
    (∀ x, env.newExporter = Result.ok x →
      measureNames (main env sched fuel) = ["my.org/measures/video_count"]) ∧
    (∀ x m, env.newExporter = Result.ok x → env.newMeasureInt64 = Result.ok m →
      viewNames (main env sched fuel) = ["video_count"]) := by
  have hm : ∀ x m, measureNames
      (interleave sched (serve env x []).1 (recorder env Context.Background m 0 fuel)) = [] :=
    fun x m => tail_filterMap_nil env x m sched fuel _ rfl rfl rfl (fun _ => rfl) rfl
      (fun _ => rfl)
  have hv : ∀ x m, viewNames
      (interleave sched (serve env x []).1 (recorder env Context.Background m 0 fuel)) = [] :=
    fun x m => tail_filterMap_nil env x m sched fuel _ rfl rfl rfl (fun _ => rfl) rfl
      (fun _ => rfl)
  have hmOk : ∀ x m v, measureNames (setupCalls x m v ++ Event.go ::
      interleave sched (serve env x []).1 (recorder env Context.Background m 0 fuel)) =
      ["my.org/measures/video_count"] := by
    intro x m v
    have happ : measureNames (setupCalls x m v ++ Event.go ::
        interleave sched (serve env x []).1 (recorder env Context.Background m 0 fuel)) =
        measureNames (setupCalls x m v) ++ measureNames (Event.go ::
          interleave sched (serve env x []).1 (recorder env Context.Background m 0 fuel)) :=
      List.filterMap_append _ _ _
    have hgo : measureNames (Event.go ::
        interleave sched (serve env x []).1 (recorder env Context.Background m 0 fuel)) =
        measureNames (interleave sched (serve env x []).1
          (recorder env Context.Background m 0 fuel)) := rfl
    rw [happ, hgo, hm]; rfl
  have hvOk : ∀ x m v, viewNames (setupCalls x m v ++ Event.go ::
      interleave sched (serve env x []).1 (recorder env Context.Background m 0 fuel)) =
      ["video_count"] := by
    intro x m v
    have happ : viewNames (setupCalls x m v ++ Event.go ::
        interleave sched (serve env x []).1 (recorder env Context.Background m 0 fuel)) =
        viewNames (setupCalls x m v) ++ viewNames (Event.go ::
          interleave sched (serve env x []).1 (recorder env Context.Background m 0 fuel)) :=
      List.filterMap_append _ _ _
    have hgo : viewNames (Event.go ::
        interleave sched (serve env x []).1 (recorder env Context.Background m 0 fuel)) =
        viewNames (interleave sched (serve env x []).1
          (recorder env Context.Background m 0 fuel)) := rfl
    rw [happ, hgo, hv]; rfl
  rcases main_cases env sched fuel with ⟨err, g1, h⟩ | ⟨x0, err, g1, g2, h⟩ |
    ⟨x0, m0, err, g1, g2, g3, h⟩ | ⟨x0, m0, v0, err, g1, g2, g3, g4, h⟩ |
    ⟨x0, m0, v0, g1, g2, g3, g4, h⟩
  · rw [h]
    refine ⟨fun n hn => ?_, fun n hn => ?_, fun x h1 => ?_, fun x m h1 _ => ?_⟩
    · simp [measureNames] at hn
    · simp [viewNames] at hn
    · rw [h1] at g1; cases g1
    · rw [h1] at g1; cases g1
  · rw [h]
    refine ⟨fun n hn => ?_, fun n hn => ?_, fun x h1 => ?_, fun x m _ h2 => ?_⟩
    · simpa [measureNames] using hn
    · simp [viewNames] at hn
    · simp [measureNames]
    · rw [h2] at g2; cases g2
  · rw [h]
    refine ⟨fun n hn => ?_, fun n hn => ?_, fun x h1 => ?_, fun x m _ _ => ?_⟩
    · simpa [measureNames] using hn
    · simpa [viewNames] using hn
    · simp [measureNames]
    · simp [viewNames]
  · rw [h]
    refine ⟨fun n hn => ?_, fun n hn => ?_, fun x h1 => ?_, fun x m _ _ => ?_⟩
    · simpa [measureNames] using hn
    · simpa [viewNames] using hn
    · simp [measureNames]
    · simp [viewNames]
  · rw [h, hmOk, hvOk]
    refine ⟨fun n hn => ?_, fun n hn => ?_, fun x h1 => rfl, fun x m _ _ => rfl⟩
    · simpa using hn
    · simpa using hn

/-- Instance of amended C5: the names in a run where the view cannot be subscribed. -/
theorem measure_and_view_names_witness :
    envNoSubscribe.newExporter = Result.ok ⟨1⟩ ∧
    envNoSubscribe.newMeasureInt64 = Result.ok ⟨2⟩ ∧
    viewNames (main envNoSubscribe [true] 1) = ["video_count"] :=
  ⟨rfl, rfl, (measure_and_view_names envNoSubscribe [true] 1).2.2.2 ⟨1⟩ ⟨2⟩ rfl rfl⟩

/-- C6, contradicted by the code: in every execution at most one measure is defined (the
comment above the call announces two, for video size and for spam count), and all
recorded measurements are against one and the same measure. -/
theorem single_measure_defined (env : Env) (sched : List Bool) (fuel : Nat) :
    (measureNames (main env sched fuel)).length ≤ 1 ∧
    (recordedMeasures (main env sched fuel)).toFinset.card ≤ 1 ∧
    measureNames (main envOk [false, false, true, false, false] 2) =
      ["my.org/measures/video_count"] ∧
    recordedMeasures (main envOk [false, false, true, false, false] 2) = [⟨2⟩, ⟨2⟩] := by
  refine ⟨?_, ?_, by decide, by decide⟩
  · rcases main_cases env sched fuel with ⟨err, -, h⟩ | ⟨x, err, -, -, h⟩ |
      ⟨x, m, err, -, -, -, h⟩ | ⟨x, m, v, err, -, -, -, -, h⟩ | ⟨x, m, v, -, -, -, -, h⟩
    · rw [h]; simp [measureNames]
    · rw [h]; simp [measureNames]
    · rw [h]; simp [measureNames]
    · rw [h]; simp [measureNames]
    · have happ : measureNames (setupCalls x m v ++ Event.go ::
          interleave sched (serve env x []).1 (recorder env Context.Background m 0 fuel)) =
          measureNames (setupCalls x m v) ++ measureNames (Event.go ::
            interleave sched (serve env x []).1 (recorder env Context.Background m 0 fuel)) :=
        List.filterMap_append _ _ _
      have hgo : measureNames (Event.go ::
          interleave sched (serve env x []).1 (recorder env Context.Background m 0 fuel)) =
          measureNames (interleave sched (serve env x []).1
            (recorder env Context.Background m 0 fuel)) := rfl
      have htail : measureNames
          (interleave sched (serve env x []).1 (recorder env Context.Background m 0 fuel))
          = [] :=
        tail_filterMap_nil env x m sched fuel _ rfl rfl rfl (fun _ => rfl) rfl (fun _ => rfl)
      rw [h, happ, hgo, htail]
      simp [measureNames, setupCalls]
  · rw [Finset.card_le_one]
    have key : ∀ a ∈ recordedMeasures (main env sched fuel),
        env.newMeasureInt64 = Result.ok a := by
      intro a ha
      unfold recordedMeasures at ha
      rw [List.mem_flatMap] at ha
      obtain ⟨e, he, hae⟩ := ha
      rcases main_mem env sched fuel _ he with h | ⟨_, _, h⟩ | h | ⟨_, _, h⟩ | h | ⟨_, _, h⟩ |
        ⟨_, h⟩ | h | h | ⟨_, _, h⟩ | h | ⟨m, hm, h⟩ | ⟨_, h⟩ <;> subst h <;>
        simp [MeasureInt64.M] at hae
      rw [hae]; exact hm
    intro a ha b hb
    rw [List.mem_toFinset] at ha hb
    have h1 := key a ha
    have h2 := key b hb
    rw [h1] at h2
    cases h2; rfl

/-- C2, as stated, fails: the loop body issues its Record call before its wait, so in the
run in which the goroutine has made one step, no iteration is complete and yet one Record
call has been issued and the view's count is 1, not 0. -/
theorem record_precedes_iteration_end :
    iterationsCompleted (main envOk [false] 1) = 0 ∧
    recordCalls (main envOk [false] 1) = 1 ∧
    viewCount ⟨3⟩ [] ⟨2⟩ (main envOk [false] 1) = some 1 ∧
    ¬ (recordCalls (main envOk [false] 1) = 0 ∧
      viewCount ⟨3⟩ [] ⟨2⟩ (main envOk [false] 1) = some 0) := by
  decide

/-- C2, amended: take any execution in which the setup succeeded, with measure `m` and
view `v`.  Every Record call carries exactly one measurement, against `m`; `v` was created
as a Count view over `m` without group-by keys and was subscribed; and under the Count
rule of the spec its count is the number of Record calls issued.  With `n` iterations of
the loop completed, that number is `n` while the goroutine stands at the head of its loop
(it has made `2 * n` calls) and `n + 1` once the Record call of the next iteration has
been issued (it has made `2 * n + 1` calls); no other case occurs.  The goroutine can
reach every number of calls. -/
theorem count_equals_record_calls (env : Env) (sched : List Bool) (fuel : Nat)
    (x : Exporter) (m : MeasureInt64) (v : View)
    (h1 : env.newExporter = Result.ok x) (h2 : env.newMeasureInt64 = Result.ok m)
    (h3 : env.newView = Result.ok v) (h4 : env.subscribe = none) :
    (∀ ctx ms, Event.record ctx ms ∈ main env sched fuel → ms = [m.M 1]) ∧
    Event.newView "video_count" "processed video size over time" [] m
      Aggregation.count Window.cumulative (Result.ok v) ∈ main env sched fuel ∧
    Event.subscribe v none ∈ main env sched fuel ∧
    viewCount v [] m (main env sched fuel) = some (recordCalls (main env sched fuel)) ∧
    (∀ n, iterationsCompleted (main env sched fuel) = n →
      (loopSteps (main env sched fuel) = 2 * n ∧ recordCalls (main env sched fuel) = n ∧
        viewCount v [] m (main env sched fuel) = some n) ∨
      (loopSteps (main env sched fuel) = 2 * n + 1 ∧
        recordCalls (main env sched fuel) = n + 1 ∧
        viewCount v [] m (main env sched fuel) = some (n + 1))) ∧
    (∀ n, loopSteps (main env sched fuel) = 2 * n →
      iterationsCompleted (main env sched fuel) = n ∧ recordCalls (main env sched fuel) = n ∧
        viewCount v [] m (main env sched fuel) = some n) ∧
    (∀ n, loopSteps (main env sched fuel) = 2 * n + 1 →
      iterationsCompleted (main env sched fuel) = n ∧
        recordCalls (main env sched fuel) = n + 1 ∧
        viewCount v [] m (main env sched fuel) = some (n + 1)) ∧
    (∀ k, ∃ s f, loopSteps (main env s f) = k) := by
  have h := main_setup_ok env sched fuel x m v h1 h2 h3 h4
  have hserve : ∀ e ∈ (serve env x []).1, Event.isLoopStep e = false := by
    intro e he
    rcases serve_mem env x e he with rfl | rfl | rfl | ⟨_, rfl⟩ <;> rfl
  have hloop : ∀ (f : Nat), ∀ e ∈ recorder env Context.Background m 0 f,
      Event.isLoopStep e = true := by
    intro f e he
    rcases recorder_mem env _ m e _ _ he with rfl | ⟨_, rfl⟩ <;> rfl
  obtain ⟨k, hk⟩ := interleave_filter Event.isLoopStep sched (serve env x []).1
    (recorder env Context.Background m 0 fuel) hserve (hloop fuel)
  have hbothR : (fun a => Event.isRecord a && Event.isLoopStep a) = Event.isRecord := by
    funext a; cases a <;> rfl
  have hbothA : (fun a => Event.isAfter a && Event.isLoopStep a) = Event.isAfter := by
    funext a; cases a <;> rfl
  have hsetupL : (setupCalls x m v).countP Event.isLoopStep = 0 := by
    simp [setupCalls, Event.isLoopStep]
  have hsetupR : (setupCalls x m v).countP Event.isRecord = 0 := by
    simp [setupCalls, Event.isRecord]
  have hsetupA : (setupCalls x m v).countP Event.isAfter = 0 := by
    simp [setupCalls, Event.isAfter]
  have hgoL : ¬ Event.isLoopStep Event.go = true := by simp [Event.isLoopStep]
  have hgoR : ¬ Event.isRecord Event.go = true := by simp [Event.isRecord]
  have hgoA : ¬ Event.isAfter Event.go = true := by simp [Event.isAfter]
  obtain ⟨hcR, hcA⟩ := recorder_take_counts env Context.Background m fuel 0 k
  rw [← hk, List.countP_filter, hbothR, ← List.countP_eq_length_filter] at hcR
  rw [← hk, List.countP_filter, hbothA, ← List.countP_eq_length_filter] at hcA
  have hL : loopSteps (main env sched fuel) = (interleave sched (serve env x []).1
      (recorder env Context.Background m 0 fuel)).countP Event.isLoopStep := by
    rw [loopSteps, h, List.countP_append, List.countP_cons_of_neg _ _ hgoL, hsetupL,
      Nat.zero_add]
  have hR : recordCalls (main env sched fuel) = (interleave sched (serve env x []).1
      (recorder env Context.Background m 0 fuel)).countP Event.isRecord := by
    rw [recordCalls, h, List.countP_append, List.countP_cons_of_neg _ _ hgoR, hsetupR,
      Nat.zero_add]
  have hA : iterationsCompleted (main env sched fuel) = (interleave sched (serve env x []).1
      (recorder env Context.Background m 0 fuel)).countP Event.isAfter := by
    rw [iterationsCompleted, h, List.countP_append, List.countP_cons_of_neg _ _ hgoA,
      hsetupA, Nat.zero_add]
  rw [← hL, ← hR] at hcR
  rw [← hL, ← hA] at hcA
  have hcount : viewCount v [] m (main env sched fuel) =
      some (recordCalls (main env sched fuel)) := by
    have hsetup : (setupCalls x m v).foldl (countStep v [] m) none = some 0 := by
      simp [setupCalls, countStep]
    have hgo : countStep v [] m (some 0) Event.go = some 0 := rfl
    rw [hR, viewCount, h, List.foldl_append, hsetup, List.foldl_cons, hgo,
      count_fold v m _ 0, Nat.zero_add]
    intro e he
    rcases tail_mem env x m sched fuel e he with rfl | rfl | rfl | ⟨_, rfl⟩ | rfl | ⟨_, rfl⟩
    · exact Or.inr ⟨rfl, fun _ _ hne => by cases hne⟩
    · exact Or.inr ⟨rfl, fun _ _ hne => by cases hne⟩
    · exact Or.inr ⟨rfl, fun _ _ hne => by cases hne⟩
    · exact Or.inr ⟨rfl, fun _ _ hne => by cases hne⟩
    · exact Or.inl rfl
    · exact Or.inr ⟨rfl, fun _ _ hne => by cases hne⟩
  refine ⟨?_, ?_, ?_, hcount, ?_, ?_, ?_, ?_⟩
  · intro ctx ms hmem
    rcases main_mem env sched fuel _ hmem with h | ⟨_, _, h⟩ | h | ⟨_, _, h⟩ | h | ⟨_, _, h⟩ |
      ⟨_, h⟩ | h | h | ⟨_, _, h⟩ | h | ⟨m0, hm0, h⟩ | ⟨_, h⟩ <;> cases h
    rw [h2] at hm0; cases hm0; rfl
  · rw [h]; simp [setupCalls]
  · rw [h]; simp [setupCalls]
  · intro n hn
    rw [hcount]
    have : loopSteps (main env sched fuel) = 2 * n ∨
        loopSteps (main env sched fuel) = 2 * n + 1 := by omega
    rcases this with hl | hl
    · exact Or.inl ⟨hl, by omega, by congr 1; omega⟩
    · exact Or.inr ⟨hl, by omega, by congr 1; omega⟩
  · intro n hn
    rw [hcount]
    exact ⟨by omega, by omega, by congr 1; omega⟩
  · intro n hn
    rw [hcount]
    exact ⟨by omega, by omega, by congr 1; omega⟩
  · intro j
    refine ⟨List.replicate j false, j, ?_⟩
    have hall : ∀ e ∈ (recorder env Context.Background m 0 j).take j,
        Event.isLoopStep e = true :=
      fun e he => hloop j e (List.mem_of_mem_take he)
    have hlen : ((recorder env Context.Background m 0 j).take j).length = j := by
      rw [List.length_take, recorder_length]; omega
    have hfilter : ((recorder env Context.Background m 0 j).take j).filter Event.isLoopStep =
        (recorder env Context.Background m 0 j).take j :=
      List.filter_eq_self.mpr hall
    rw [loopSteps, main_setup_ok env _ j x m v h1 h2 h3 h4, interleave_recorder_only,
      List.countP_append, List.countP_cons_of_neg _ _ hgoL, hsetupL, Nat.zero_add,
      List.countP_eq_length_filter, hfilter, hlen]

/-- Instance of amended C2: a run in which the recording goroutine has completed one
iteration and issued the Record call of the second while the main goroutine printed its
message; two Record calls, count 2. -/
theorem count_equals_record_calls_witness :
    envOk.newExporter = Result.ok ⟨1⟩ ∧ envOk.newMeasureInt64 = Result.ok ⟨2⟩ ∧
    envOk.newView = Result.ok ⟨3⟩ ∧ envOk.subscribe = none ∧
    loopSteps (main envOk [false, true, false, false] 5) = 2 * 1 + 1 ∧
    iterationsCompleted (main envOk [false, true, false, false] 5) = 1 ∧
    recordCalls (main envOk [false, true, false, false] 5) = 1 + 1 ∧
    viewCount ⟨3⟩ [] ⟨2⟩ (main envOk [false, true, false, false] 5) = some (1 + 1) :=
  ⟨rfl, rfl, rfl, rfl, by decide,
    (count_equals_record_calls envOk [false, true, false, false] 5 ⟨1⟩ ⟨2⟩ ⟨3⟩
      rfl rfl rfl rfl).2.2.2.2.2.2.1 1 (by decide)⟩

end PrometheusExample
